import Mathlib

/-!
Verification of the Ellmers job-queue storage layer.

The definitions below are a shallow embedding of `IndexedDbJobQueue`
(packages/storage/src/browser/indexeddb — the class `IndexedDbJobQueue` with
methods `add`, `get`, `next`, `complete`, `abort`, `outputForInput`).  The
IndexedDB object store `jobs` (keyPath `id`) is modelled as a list of job
records; an IndexedDB index orders its records by index key and, among records
with equal index keys, by primary key, and a cursor opened with direction
`next` visits the records inside the given key range in that ascending order.
IndexedDB key comparison sorts every number before every string and every
string before every array, so a key range built from a scalar key never
contains the array keys of a compound index.  Supporting pieces that live in
the `ellmers-core` package (the `Job` entity, the `JobStatus` enum, the error
taxonomy, `makeFingerprint`, `nanoid`) are not among the repository sources and
are modelled from the spec, as marked on each such definition.
-/

namespace Ellmers

mutual

/-- Serializable JavaScript values, as used for job inputs and outputs by the
repository's tests (`TaskInput`/`TaskOutput` are plain JSON-like objects).
Arrays, booleans and non-integer numbers are not used by any claim and are
omitted. -/
inductive JVal where
  | jnull : JVal
  | jstr (s : String) : JVal
  | jnum (n : Int) : JVal
  | jobj (fields : JFields) : JVal

inductive JFields where
  | fnil : JFields
  | fcons (key : String) (value : JVal) (rest : JFields) : JFields

end

mutual

/-- Modelled from the spec (§4.1): the canonical serialization underlying
`makeFingerprint`. -/
def serializeJVal : JVal → String
  | .jnull => "null"
  | .jstr s => "s(" ++ s ++ ")"
  | .jnum n => "n(" ++ toString n ++ ")"
  | .jobj fs => "o(" ++ serializeJFields fs ++ ")"

def serializeJFields : JFields → String
  | .fnil => ""
  | .fcons k v rest => k ++ "=" ++ serializeJVal v ++ ";" ++ serializeJFields rest

end

/-- Modelled from the spec (§4.1): `makeFingerprint` (from `util/Misc`, not in
the sources) produces a deterministic, pure digest of the canonical
serialization of the input.  The hash itself is modelled as the canonical
serialization: no claim depends on collision resistance, key sorting or
numeric normalization, only on the fingerprint being a pure function of the
input. -/
def makeFingerprint (input : JVal) : String := serializeJVal input

/-- Modelled from JavaScript semantics: the implicit ToString coercion applied
by `JSON.parse` to a non-string argument.  `null` coerces to `"null"`, numbers
to their decimal representation, and a plain object to `"[object Object]"`. -/
def jsToString : JVal → String
  | .jnull => "null"
  | .jstr s => s
  | .jnum n => toString n
  | .jobj _ => "[object Object]"

/-- Modelled from JavaScript semantics: truthiness of a value, as tested by
`result.output ? ... : null` in `outputForInput`.  `null`, `""` and `0` are
falsy; every other modelled value is truthy. -/
def truthy : JVal → Bool
  | .jnull => false
  | .jstr s => !s.isEmpty
  | .jnum n => decide (n ≠ 0)
  | .jobj _ => true

def skipWs : List Char → List Char
  | c :: rest => if c = ' ' ∨ c = '\n' ∨ c = '\t' ∨ c = '\r' then skipWs rest else c :: rest
  | [] => []

def readDigits (acc : Nat) : List Char → (Nat × List Char)
  | c :: rest =>
    if c.isDigit then readDigits (acc * 10 + (c.toNat - 48)) rest else (acc, c :: rest)
  | [] => (acc, [])

def readQuoted : List Char → Option (List Char × List Char)
  | [] => none
  | c :: rest =>
    if c = '"' then some ([], rest)
    else (readQuoted rest).map (fun p => (c :: p.1, p.2))

mutual

/-- Modelled from JavaScript semantics: a recursive-descent reader for the JSON
grammar restricted to the values of `JVal` (null, integer numerals, strings
without escape sequences, and objects).  Other JSON forms are rejected; no
claim depends on them.  Recursion is bounded by a character-count fuel. -/
def parseJVal : Nat → List Char → Option (JVal × List Char)
  | 0, _ => none
  | fuel + 1, cs =>
    match skipWs cs with
    | 'n' :: 'u' :: 'l' :: 'l' :: rest => some (.jnull, rest)
    | '"' :: rest => (readQuoted rest).map (fun p => (.jstr (String.mk p.1), p.2))
    | '-' :: c :: rest =>
      if c.isDigit then
        let p := readDigits (c.toNat - 48) rest
        some (.jnum (-(p.1 : Int)), p.2)
      else none
    | c :: rest =>
      if c.isDigit then
        let p := readDigits (c.toNat - 48) rest
        some (.jnum (p.1 : Int), p.2)
      else if c = Char.ofNat 123 then
        (parseJFields fuel rest).map (fun p => (.jobj p.1, p.2))
      else none
    | [] => none

def parseJFields : Nat → List Char → Option (JFields × List Char)
  | 0, _ => none
  | fuel + 1, cs =>
    match skipWs cs with
    | c :: rest =>
      if c = Char.ofNat 125 then some (.fnil, rest)
      else if c = '"' then
        match readQuoted rest with
        | some (k, r1) =>
          match skipWs r1 with
          | ':' :: r2 =>
            match parseJVal fuel r2 with
            | some (v, r3) =>
              match skipWs r3 with
              | ',' :: r4 => (parseJFields fuel r4).map
                  (fun p => (.fcons (String.mk k) v p.1, p.2))
              | c2 :: r4 =>
                if c2 = Char.ofNat 125 then some (.fcons (String.mk k) v .fnil, r4)
                else none
              | [] => none
            | none => none
          | _ => none
        | none => none
      else none
    | [] => none

end

/-- Modelled from JavaScript semantics: `JSON.parse(x)` coerces its argument to
a string and parses that string as JSON, throwing a `SyntaxError` when the
text is not valid JSON (`none` here).  In particular a plain object coerces to
`"[object Object]"`, which is not valid JSON. -/
def jsJsonParse (v : JVal) : Option JVal :=
  match parseJVal ((jsToString v).length + 1) (jsToString v).data with
  | some (r, rest) => if (skipWs rest).isEmpty then some r else none
  | none => none

/-- Modelled from the spec (§3): the job status enum of `ellmers-core`. -/
inductive JobStatus where
  | PENDING
  | PROCESSING
  | ABORTING
  | COMPLETED
  | FAILED
  | SKIPPED
deriving DecidableEq

/-- Modelled from the spec (§7): the error taxonomy of `ellmers-core`.
`retryable` is `RetryableJobError` (carrying a retry date), `permanent` is
`PermanentJobError`, `abortSignal` is `AbortSignalJobError`, and `generic`
stands for any other `JobError`.  Dates are epoch milliseconds. -/
inductive JobError where
  | retryable (msg : String) (retryDate : Nat)
  | permanent (msg : String)
  | abortSignal (msg : String)
  | generic (msg : String)

def JobError.message : JobError → String
  | .retryable m _ => m
  | .permanent m => m
  | .abortSignal m => m
  | .generic m => m

/-- Modelled from the spec (§3): the durable `Job` entity of `ellmers-core`.
`runAfter` and `retryDate` are epoch milliseconds.  The timestamp fields
`createdAt`, `updatedAt` and `deadlineAt` are never read or written by any of
the embedded `IndexedDbJobQueue` operations and are omitted. -/
structure Job where
  id : Option String
  jobRunId : Option String
  queueName : Option String
  taskType : String
  input : JVal
  fingerprint : Option String
  status : JobStatus
  output : JVal
  error : Option String
  retries : Nat
  maxRetries : Nat
  runAfter : Nat

/-- Modelled from the spec (§3, §8): the `Job` constructor of `ellmers-core`.
A freshly constructed job has the given task type and input, optionally a
caller-supplied `id` and `jobRunId`, `status = PENDING`, no output, no error,
no fingerprint, no queue name, and `retries = 0`. -/
def mkJob (taskType : String) (input : JVal) (id jobRunId : Option String)
    (maxRetries : Nat) (runAfter : Nat) : Job :=
  { id := id, jobRunId := jobRunId, queueName := none, taskType := taskType,
    input := input, fingerprint := none, status := .PENDING, output := .jnull,
    error := none, retries := 0, maxRetries := maxRetries, runAfter := runAfter }

/-- Modelled from the `nanoid` library used by `add`: a generator of fresh
non-empty ids, indexed by a seed.  Real `nanoid()` returns a random 21-character
string; the model makes the draw explicit as a seed argument. -/
def nanoid (seed : Nat) : String := "nid" ++ toString seed

/-- The IndexedDB object store `jobs` (keyPath `id`) of one queue. -/
structure Store where
  jobs : List Job

def emptyStore : Store := ⟨[]⟩

/-- Primary key of a stored record (the `id` keyPath). -/
def idStr (j : Job) : String := j.id.getD ""

/-- Lookup by primary key, as `objectStore.get(id)` does. -/
def getJob (id : String) : List Job → Option Job
  | [] => none
  | j :: rest => if j.id = some id then some j else getJob id rest

/-- Existence of a record with the given primary key. -/
def hasId (id : String) : List Job → Bool
  | [] => false
  | j :: rest => if j.id = some id then true else hasId id rest

/-- Write-back of a record under its primary key, as `cursor.update` /
`objectStore.put` do for a record whose key is already present. -/
def updateJobs (newJob : Job) : List Job → List Job
  | [] => []
  | j :: rest => if j.id = newJob.id then newJob :: updateJobs newJob rest
      else j :: updateJobs newJob rest

/-- Modelled from IndexedDB semantics: keys of the Indexed Database API, in
the shapes the embedded queries use — numbers (`Date` keys compare by time
value, epoch ms), strings, and two-element array keys (compound indexes).
The standard key ordering sorts every number before every string and every
string before every array; in particular two keys are equal only when they
have the same shape. -/
inductive IdbKey where
  | knum (n : Nat) : IdbKey
  | kstr (s : String) : IdbKey
  | kpair (fst snd : IdbKey) : IdbKey
deriving DecidableEq

/-- Modelled from the spec (§3): the `JobStatus` enum values of `ellmers-core`
are their string names (a TypeScript string enum), which is what an index
stores as the `status` key component and what `IDBKeyRange.only(status)` is
given as a scalar key. -/
def statusName : JobStatus → String
  | .PENDING => "PENDING"
  | .PROCESSING => "PROCESSING"
  | .ABORTING => "ABORTING"
  | .COMPLETED => "COMPLETED"
  | .FAILED => "FAILED"
  | .SKIPPED => "SKIPPED"

/-- The key of a record in the `status_runAfter` index, per its compound key
path `["status", "runAfter"]`: the array key `[status, runAfter]`. -/
def statusRunAfterKey (j : Job) : IdbKey :=
  .kpair (.kstr (statusName j.status)) (.knum j.runAfter)

/-- The records matched by `IDBKeyRange.only(JobStatus.PENDING)` on the
`status_runAfter` index: those whose index key equals the scalar string key
`JobStatus.PENDING` (`IDBKeyRange.only(v)` contains exactly the keys equal to
`v`).  Every key of this compound index is an array key, and an array key
never equals a string key, so no record matches. -/
def pendingOf : List Job → List Job
  | [] => []
  | j :: rest =>
    if statusRunAfterKey j = .kstr (statusName .PENDING)
    then j :: pendingOf rest else pendingOf rest

def strLEaux : List Char → List Char → Bool
  | [], _ => true
  | _ :: _, [] => false
  | a :: as, b :: bs =>
    if a.toNat < b.toNat then true
    else if b.toNat < a.toNat then false
    else strLEaux as bs

/-- Order on string keys, as IndexedDB compares them: lexicographically by
code unit. -/
def strLE (a b : String) : Bool := strLEaux a.data b.data

/-- Ascending order of the `status_runAfter` index restricted to one status:
by `runAfter` (IndexedDB compares `Date` keys by time value), then (for
records with equal index keys) by primary key. -/
def jobLE (a b : Job) : Bool :=
  if a.runAfter < b.runAfter then true
  else if b.runAfter < a.runAfter then false
  else strLE (idStr a) (idStr b)

/-- Ascending primary-key order, used by `index.get` among records with equal
index keys. -/
def idLE (a b : Job) : Bool := strLE (idStr a) (idStr b)

/-- First record visited by a cursor over a list of records, i.e. the least
record in the given order. -/
def firstBy (le : Job → Job → Bool) : List Job → Option Job
  | [] => none
  | j :: rest =>
    match firstBy le rest with
    | none => some j
    | some m => if le j m then some j else some m

/-- Embeds `IndexedDbJobQueue.add`: fills in `id` and `jobRunId` when absent
(two `nanoid()` draws, modelled by `seed` and `seed + 1`), sets `queueName` to
the queue's name and `fingerprint` to `makeFingerprint(job.input)`, then
inserts via `objectStore.add`, which fails with a `ConstraintError` when the
key already exists (the transaction then aborts without writing); on success
the promise resolves with the job's id. -/
def add (queueName : String) (seed : Nat) (job : Job) (st : Store) :
    Except String String × Store :=
  let id := job.id.getD (nanoid seed)
  let jobRunId := job.jobRunId.getD (nanoid (seed + 1))
  let j := { job with
      id := some id, jobRunId := some jobRunId, queueName := some queueName,
      fingerprint := some (makeFingerprint job.input) }
  if hasId id st.jobs then (.error "ConstraintError", st)
  else (.ok id, ⟨st.jobs ++ [j]⟩)

/-- Embeds `IndexedDbJobQueue.get`: resolves with the record under the key, or
with `undefined` (`none`) when absent or on error. -/
def get (id : String) (st : Store) : Option Job := getJob id st.jobs

/-- Embeds `IndexedDbJobQueue.next`: opens an ascending cursor over the
`status_runAfter` index with the range `IDBKeyRange.only(JobStatus.PENDING)`
(`pendingOf`, visited in index order: key, then primary key — `firstBy jobLE`);
a non-null cursor would have its record's status set to `PROCESSING`, written
back through the cursor, and resolved; with no matching record the cursor is
null and the promise resolves with `undefined` (`none`), nothing written.
Because the scalar range matches no array key of the compound index,
`pendingOf` is always empty and the null-cursor path is the one taken. -/
def next (st : Store) : Option Job × Store :=
  match firstBy jobLE (pendingOf st.jobs) with
  | none => (none, st)
  | some j0 =>
    let j := { j0 with status := JobStatus.PROCESSING }
    (some j, ⟨updateJobs j st.jobs⟩)

/-- Outcome classification performed by `IndexedDbJobQueue.complete` on the
fetched record: with an error it sets `error` to the error's message and
increments `retries`, then for a `RetryableJobError` fails the job when
`retries >= maxRetries` and otherwise re-queues it as `PENDING` with
`runAfter = retryDate`, while every other error kind (the
`instanceof PermanentJobError` branch and the final `else`) fails the job;
without an error it marks the job `COMPLETED` with the given output. -/
def completeResult (job : Job) (output : JVal) (error : Option JobError) : Job :=
  match error with
  | some e =>
    let withErr := { job with error := some e.message, retries := job.retries + 1 }
    match e with
    | .retryable _ retryDate =>
      if withErr.retries ≥ withErr.maxRetries then { withErr with status := JobStatus.FAILED }
      else { withErr with status := JobStatus.PENDING, runAfter := retryDate }
    | .permanent _ => { withErr with status := JobStatus.FAILED }
    | .abortSignal _ => { withErr with status := JobStatus.FAILED }
    | .generic _ => { withErr with status := JobStatus.FAILED }
  | none => { job with status := JobStatus.COMPLETED, output := output }

/-- Embeds `IndexedDbJobQueue.complete`: fetches the record (rejecting with
`Job <id> not found` and writing nothing when absent), applies the outcome
classification `completeResult`, and writes the record back with
`objectStore.put`.  (The `onCompleted` event callback of the base class
touches no store state and is not modelled.) -/
def complete (id : String) (output : JVal) (error : Option JobError) (st : Store) :
    Except String Unit × Store :=
  match getJob id st.jobs with
  | none => (.error ("Job " ++ id ++ " not found"), st)
  | some job => (.ok (), ⟨updateJobs (completeResult job output error) st.jobs⟩)

/-- Embeds `IndexedDbJobQueue.abort`: fetches the record (rejecting with
`Job <id> not found` and writing nothing when absent), sets its status to
`ABORTING` whatever its current status, and writes it back.  (The in-process
`abortJob` signal of the base class touches no store state and is not
modelled.) -/
def abort (jobId : String) (st : Store) : Except String Unit × Store :=
  match getJob jobId st.jobs with
  | none => (.error ("Job " ++ jobId ++ " not found"), st)
  | some job => (.ok (), ⟨updateJobs { job with status := JobStatus.ABORTING } st.jobs⟩)

/-- The records matched by `index.get([taskType, fingerprint, COMPLETED])` on
the `taskType_fingerprint_status` index. -/
def completedMatches (taskType fingerprint : String) : List Job → List Job
  | [] => []
  | j :: rest =>
    if j.taskType = taskType ∧ j.fingerprint = some fingerprint ∧ j.status = .COMPLETED
    then j :: completedMatches taskType fingerprint rest
    else completedMatches taskType fingerprint rest

/-- Embeds `IndexedDbJobQueue.outputForInput`: computes the fingerprint of the
input and queries the `taskType_fingerprint_status` index with the compound key
`[taskType, fingerprint, COMPLETED]`; `index.get` yields the first matching
record in index order (primary-key order, all matches having the same index
key).  With no match, or a match whose `output` is falsy, the promise resolves
with `null` (`.ok none`); otherwise the handler evaluates
`JSON.parse(result.output)` — when that throws, the exception escapes the
`onsuccess` handler and the promise never settles (`.error`). -/
def outputForInput (taskType : String) (input : JVal) (st : Store) :
    Except String (Option JVal) :=
  let fingerprint := makeFingerprint input
  match firstBy idLE (completedMatches taskType fingerprint st.jobs) with
  | none => .ok none
  | some j =>
    if truthy j.output then
      match jsJsonParse j.output with
      | some v => .ok (some v)
      | none => .error "SyntaxError"
    else .ok none

/-- States of the object store reachable from the empty store by the embedded
queue operations, jobs entering only through `add` of constructor-built jobs. -/
inductive Reachable : Store → Prop
  | empty : Reachable emptyStore
  | addStep (q : String) (seed : Nat) (taskType : String) (input : JVal)
      (id jobRunId : Option String) (maxRetries runAfter : Nat) (st : Store) :
      Reachable st →
      Reachable (add q seed (mkJob taskType input id jobRunId maxRetries runAfter) st).2
  | nextStep (st : Store) : Reachable st → Reachable (next st).2
  | completeStep (id : String) (output : JVal) (error : Option JobError) (st : Store) :
      Reachable st → Reachable (complete id output error st).2
  | abortStep (id : String) (st : Store) : Reachable st → Reachable (abort id st).2

/-- Two equal-`runAfter` PENDING jobs added in the order `b` then `a`: a store
on which the claim expects `next()` to return the `b` job. -/
def stC1 : Store :=
  (add "q" 1 (mkJob "t1" .jnull (some "a") (some "r") 3 5)
    (add "q" 0 (mkJob "t1" .jnull (some "b") (some "r") 3 5) emptyStore).2).2

/-- A PROCESSING job with retry budget left, for exercising `complete` with a
`RetryableJobError`. -/
def jC3 : Job :=
  { id := some "a", jobRunId := some "r", queueName := some "q", taskType := "t",
    input := .jnull, fingerprint := some (makeFingerprint .jnull),
    status := .PROCESSING, output := .jnull, error := none, retries := 0,
    maxRetries := 3, runAfter := 0 }

def stC3 : Store := ⟨[jC3]⟩

/-- The input of the memoization scenario (test scenario S1):
`{ data: "input1" }`. -/
def inC5 : JVal := .jobj (.fcons "data" (.jstr "input1") .fnil)

/-- The output of the memoization scenario: `{ result: "success" }`. -/
def outC5 : JVal := .jobj (.fcons "result" (.jstr "success") .fnil)

/-- The store of the memoization scenario: one job added with task type
`task1` and input `inC5`, then completed successfully with output `outC5`. -/
def stC5 : Store :=
  (complete "a" outC5 none
    (add "q" 0 (mkJob "task1" inC5 (some "a") (some "r") 3 0) emptyStore).2).2

/-- A store whose only job has already reached the terminal state COMPLETED:
one job added and then completed successfully. -/
def stC6 : Store :=
  (complete "a" outC5 none
    (add "q" 0 (mkJob "t" .jnull (some "a") (some "r") 3 0) emptyStore).2).2

/-- A store with one PENDING job, for the witness of the amended transition
theorem. -/
def jC6 : Job :=
  { id := some "a", jobRunId := some "r", queueName := some "q", taskType := "t",
    input := .jnull, fingerprint := some (makeFingerprint .jnull),
    status := .PENDING, output := .jnull, error := none, retries := 0,
    maxRetries := 3, runAfter := 0 }

def stC6w : Store := ⟨[jC6]⟩

/-- A reachable store in which a job's `retries` exceeds its `maxRetries`:
one job added with `maxRetries = 1`, then completed twice with a
`PermanentJobError` (the second `complete` still increments `retries`). -/
def stC7 : Store :=
  (complete "a" .jnull (some (.permanent "boom"))
    (complete "a" .jnull (some (.permanent "boom"))
      (add "q" 0 (mkJob "t" .jnull (some "a") (some "r") 1 0) emptyStore).2).2).2

/-- The record stored under id `a` in `stC7`: FAILED with `retries = 2`
against `maxRetries = 1`. -/
def jC7bad : Job :=
  { id := some "a", jobRunId := some "r", queueName := some "q", taskType := "t",
    input := .jnull, fingerprint := some (makeFingerprint .jnull),
    status := .FAILED, output := .jnull, error := some "boom", retries := 2,
    maxRetries := 1, runAfter := 0 }

/-- A PROCESSING job one error away from its retry bound. -/
def jC7 : Job :=
  { id := some "a", jobRunId := some "r", queueName := some "q", taskType := "t",
    input := .jnull, fingerprint := some (makeFingerprint .jnull),
    status := .PROCESSING, output := .jnull, error := none, retries := 0,
    maxRetries := 1, runAfter := 0 }

def stC7w : Store := ⟨[jC7]⟩

/-- A store already holding a job with id `a`, for the duplicate-add claim. -/
def jC8 : Job :=
  { id := some "a", jobRunId := some "r", queueName := some "q", taskType := "t",
    input := .jnull, fingerprint := some (makeFingerprint .jnull),
    status := .PENDING, output := .jnull, error := none, retries := 0,
    maxRetries := 3, runAfter := 0 }

def stC8 : Store := ⟨[jC8]⟩

/-- A PROCESSING job for exercising `complete` with an `AbortSignalJobError`. -/
def jC9 : Job :=
  { id := some "a", jobRunId := some "r", queueName := some "q", taskType := "t",
    input := .jnull, fingerprint := some (makeFingerprint .jnull),
    status := .PROCESSING, output := .jnull, error := none, retries := 4,
    maxRetries := 3, runAfter := 0 }

def stC9 : Store := ⟨[jC9]⟩

theorem pendingOf_eq_nil (l : List Job) : pendingOf l = [] := by
  induction l with
  | nil => rfl
  | cons j rest ih =>
    simp only [pendingOf]
    rw [if_neg (by intro hc; simp [statusRunAfterKey] at hc), ih]

theorem next_eq_none (st : Store) : next st = (none, st) := by
  simp [next, pendingOf_eq_nil, firstBy]

theorem getJob_mem {i : String} {l : List Job} {j : Job}
    (h : getJob i l = some j) : j ∈ l ∧ j.id = some i := by
  induction l with
  | nil => simp [getJob] at h
  | cons x rest ih =>
    simp only [getJob] at h
    by_cases hx : x.id = some i
    · rw [if_pos hx] at h
      simp only [Option.some.injEq] at h
      exact ⟨by rw [← h]; exact List.mem_cons_self _ _, by rw [← h]; exact hx⟩
    · rw [if_neg hx] at h
      exact ⟨List.mem_cons_of_mem _ (ih h).1, (ih h).2⟩

theorem getJob_of_hasId_false {i : String} {l : List Job}
    (h : hasId i l = false) : getJob i l = none := by
  induction l with
  | nil => rfl
  | cons x rest ih =>
    simp only [hasId] at h
    simp only [getJob]
    by_cases hx : x.id = some i
    · rw [if_pos hx] at h; simp at h
    · rw [if_neg hx] at h
      rw [if_neg hx]
      exact ih h

theorem getJob_updateJobs {i : String} {l : List Job} {j : Job}
    (hid : j.id = some i) (hmem : ∃ x, x ∈ l ∧ x.id = some i) :
    getJob i (updateJobs j l) = some j := by
  induction l with
  | nil =>
    rcases hmem with ⟨x, hx, _⟩
    simp at hx
  | cons y rest ih =>
    simp only [updateJobs]
    by_cases hy : y.id = j.id
    · rw [if_pos hy]
      simp [getJob, hid]
    · rw [if_neg hy]
      have hyi : ¬ y.id = some i := fun hc => hy (hc.trans hid.symm)
      simp only [getJob]
      rw [if_neg hyi]
      apply ih
      rcases hmem with ⟨x, hx, hxi⟩
      rcases List.mem_cons.mp hx with hxy | hxr
      · exact absurd (hxy ▸ hxi) hyi
      · exact ⟨x, hxr, hxi⟩

theorem getJob_append_fresh {i : String} {l : List Job} {j : Job}
    (h : hasId i l = false) (hid : j.id = some i) :
    getJob i (l ++ [j]) = some j := by
  induction l with
  | nil => simp [getJob, hid]
  | cons x rest ih =>
    simp only [hasId] at h
    by_cases hx : x.id = some i
    · rw [if_pos hx] at h; simp at h
    · rw [if_neg hx] at h
      simp only [List.cons_append, getJob]
      rw [if_neg hx]
      exact ih h

theorem completeResult_none (job : Job) (out : JVal) :
    completeResult job out none =
      { job with status := JobStatus.COMPLETED, output := out } := rfl

theorem completeResult_retryable (job : Job) (out : JVal) (msg : String) (d : Nat) :
    completeResult job out (some (.retryable msg d)) =
      if job.retries + 1 ≥ job.maxRetries
      then { job with
             error := some msg, retries := job.retries + 1,
             status := JobStatus.FAILED }
      else { job with
             error := some msg, retries := job.retries + 1,
             status := JobStatus.PENDING, runAfter := d } := rfl

theorem completeResult_permanent (job : Job) (out : JVal) (msg : String) :
    completeResult job out (some (.permanent msg)) =
      { job with
        error := some msg, retries := job.retries + 1,
        status := JobStatus.FAILED } := rfl

theorem completeResult_abortSignal (job : Job) (out : JVal) (msg : String) :
    completeResult job out (some (.abortSignal msg)) =
      { job with
        error := some msg, retries := job.retries + 1,
        status := JobStatus.FAILED } := rfl

theorem completeResult_generic (job : Job) (out : JVal) (msg : String) :
    completeResult job out (some (.generic msg)) =
      { job with
        error := some msg, retries := job.retries + 1,
        status := JobStatus.FAILED } := rfl

theorem completeResult_id (job : Job) (out : JVal) (err : Option JobError) :
    (completeResult job out err).id = job.id := by
  cases err with
  | none => rfl
  | some e =>
    cases e with
    | retryable msg d =>
      rw [completeResult_retryable]
      split_ifs <;> rfl
    | permanent msg => rfl
    | abortSignal msg => rfl
    | generic msg => rfl

theorem completeResult_some_retries (job : Job) (out : JVal) (e : JobError) :
    (completeResult job out (some e)).retries = job.retries + 1 := by
  cases e with
  | retryable msg d =>
    rw [completeResult_retryable]
    split_ifs <;> rfl
  | permanent msg => rfl
  | abortSignal msg => rfl
  | generic msg => rfl

theorem completeResult_some_maxRetries (job : Job) (out : JVal) (e : JobError) :
    (completeResult job out (some e)).maxRetries = job.maxRetries := by
  cases e with
  | retryable msg d =>
    rw [completeResult_retryable]
    split_ifs <;> rfl
  | permanent msg => rfl
  | abortSignal msg => rfl
  | generic msg => rfl

theorem completeResult_some_error (job : Job) (out : JVal) (e : JobError) :
    (completeResult job out (some e)).error = some e.message := by
  cases e with
  | retryable msg d =>
    rw [completeResult_retryable]
    split_ifs <;> rfl
  | permanent msg => rfl
  | abortSignal msg => rfl
  | generic msg => rfl

theorem completeResult_status (job : Job) (out : JVal) (err : Option JobError) :
    (completeResult job out err).status = JobStatus.COMPLETED ∨
    (completeResult job out err).status = JobStatus.FAILED ∨
    (completeResult job out err).status = JobStatus.PENDING := by
  cases err with
  | none => left; rfl
  | some e =>
    cases e with
    | retryable msg d =>
      rw [completeResult_retryable]
      split_ifs
      · right; left; rfl
      · right; right; rfl
    | permanent msg => right; left; rfl
    | abortSignal msg => right; left; rfl
    | generic msg => right; left; rfl

theorem completeResult_bound (job : Job) (out : JVal) (e : JobError)
    (h : (completeResult job out (some e)).retries ≥
      (completeResult job out (some e)).maxRetries) :
    (completeResult job out (some e)).status = JobStatus.FAILED := by
  cases e with
  | retryable msg d =>
    rw [completeResult_retryable] at h ⊢
    split_ifs at h ⊢ with hc
    · rfl
    · exact absurd h hc
  | permanent msg => rfl
  | abortSignal msg => rfl
  | generic msg => rfl

theorem complete_found {i : String} {st : Store} {j : Job} (out : JVal)
    (err : Option JobError) (h : getJob i st.jobs = some j) :
    complete i out err st = (.ok (), ⟨updateJobs (completeResult j out err) st.jobs⟩) := by
  simp only [complete, h]

theorem get_complete_found {i : String} {st : Store} {j : Job} (out : JVal)
    (err : Option JobError) (h : getJob i st.jobs = some j) :
    get i (complete i out err st).2 = some (completeResult j out err) := by
  rw [complete_found out err h]
  show getJob i (updateJobs (completeResult j out err) st.jobs) = _
  apply getJob_updateJobs
  · rw [completeResult_id]; exact (getJob_mem h).2
  · exact ⟨j, (getJob_mem h).1, (getJob_mem h).2⟩

theorem abort_found {i : String} {st : Store} {j : Job} (h : getJob i st.jobs = some j) :
    abort i st = (.ok (), ⟨updateJobs { j with status := JobStatus.ABORTING } st.jobs⟩) := by
  simp only [abort, h]

theorem get_abort_found {i : String} {st : Store} {j : Job}
    (h : getJob i st.jobs = some j) :
    get i (abort i st).2 = some { j with status := JobStatus.ABORTING } := by
  rw [abort_found h]
  show getJob i (updateJobs { j with status := JobStatus.ABORTING } st.jobs) = _
  apply getJob_updateJobs
  · exact (getJob_mem h).2
  · exact ⟨j, (getJob_mem h).1, (getJob_mem h).2⟩

/-- C1 (code-bug evaluation): `stC1` holds two PENDING jobs with equal
`runAfter`, added in the order `b` then `a`.  The claim — backed by spec
scenario S2 and by the repository's generic job-queue test "should retrieve
the next job in the queue", which expects `next()` to return the first job
with status PROCESSING — says `next()` returns the earliest PENDING job,
PROCESSING in the returned value and the store.  Instead `next()` resolves
`undefined` and writes nothing: its cursor is opened over the compound
`status_runAfter` index with the scalar range
`IDBKeyRange.only(JobStatus.PENDING)`, and an array index key never equals a
scalar string key, so the range matches no records. -/
theorem claim1_code_bug_eval :
    (get "b" stC1).map Job.status = some .PENDING ∧
    (get "a" stC1).map Job.status = some .PENDING ∧
    (get "b" stC1).map Job.runAfter = (get "a" stC1).map Job.runAfter ∧
    next stC1 = (none, stC1) :=
  ⟨rfl, rfl, rfl, rfl⟩

/-- C2 (confirmed, vacuously): `next()` never returns any job at all — the
scalar key range `IDBKeyRange.only(JobStatus.PENDING)` matches no array key of
the compound `status_runAfter` index (see C1) — so every job returned by
`next()` trivially was eligible, and a PENDING job whose `runAfter` lies in
the future is never returned: nothing is.  The first conjunct states the
underlying fact outright; the second formalizes the claim itself: for every
call time `now`, every job that `next()` returns has `runAfter ≤ now`. -/
theorem claim2_next_eligibility (st : Store) (now : Nat) :
    (next st).1 = none ∧
    ((next st).1.all fun j => decide (j.runAfter ≤ now)) = true := by
  rw [next_eq_none]
  exact ⟨rfl, rfl⟩

/-- C3 (confirmed): completing a stored job with a `RetryableJobError` carrying
a retry date increments its `retries` by one; if the incremented count reaches
`maxRetries` the job's status becomes FAILED, otherwise the status becomes
PENDING and `runAfter` becomes the error's retry date. -/
theorem claim3_retryable_complete (st : Store) (i msg : String) (d : Nat) (j : Job)
    (h : getJob i st.jobs = some j) :
    ∃ j', get i (complete i .jnull (some (.retryable msg d)) st).2 = some j' ∧
      j'.retries = j.retries + 1 ∧
      (j.retries + 1 ≥ j.maxRetries → j'.status = .FAILED) ∧
      (j.retries + 1 < j.maxRetries → j'.status = .PENDING ∧ j'.runAfter = d) := by
  refine ⟨completeResult j .jnull (some (.retryable msg d)),
    get_complete_found _ _ h, ?_, ?_, ?_⟩
  · exact completeResult_some_retries _ _ _
  · intro hge
    rw [completeResult_retryable, if_pos hge]
  · intro hlt
    rw [completeResult_retryable, if_neg (by omega)]
    exact ⟨rfl, rfl⟩

/-- C3 (witness): the theorem applied to the store `stC3`, whose job `jC3` has
`retries = 0` and `maxRetries = 3`, with retry date 42. -/
theorem claim3_witness :
    ∃ j', get "a" (complete "a" .jnull (some (.retryable "transient" 42)) stC3).2 = some j' ∧
      j'.retries = jC3.retries + 1 ∧
      (jC3.retries + 1 ≥ jC3.maxRetries → j'.status = .FAILED) ∧
      (jC3.retries + 1 < jC3.maxRetries → j'.status = .PENDING ∧ j'.runAfter = 42) :=
  claim3_retryable_complete stC3 "a" "transient" 42 jC3 rfl

theorem nanoid_ne_empty (seed : Nat) : nanoid seed ≠ "" := by
  unfold nanoid
  intro hc
  have hlen := congrArg String.length hc
  rw [String.length_append] at hlen
  have h3 : ("nid" : String).length = 3 := rfl
  have h0 : ("" : String).length = 0 := rfl
  omega

/-- C4 (confirmed): whenever `add` succeeds on a constructor-built job, the
stored job has status PENDING, its id is assigned (`some rid`, the id `add`
returned — freshly generated and non-empty when the caller supplied none), and
its fingerprint is the fingerprint function applied to its input. -/
theorem claim4_add_postconditions (q : String) (seed : Nat) (taskType : String)
    (input : JVal) (oid orid : Option String) (mr ra : Nat) (st : Store) (rid : String)
    (h : (add q seed (mkJob taskType input oid orid mr ra) st).1 = .ok rid) :
    ∃ j', get rid (add q seed (mkJob taskType input oid orid mr ra) st).2 = some j' ∧
      j'.status = .PENDING ∧ j'.id = some rid ∧
      j'.fingerprint = some (makeFingerprint input) ∧
      (oid = none → rid = nanoid seed ∧ rid ≠ "") := by
  by_cases hdup : hasId (oid.getD (nanoid seed)) st.jobs = true
  · exfalso
    simp only [add, mkJob] at h
    rw [if_pos hdup] at h
    exact Except.noConfusion h
  · have hinj : oid.getD (nanoid seed) = rid := by
      simp only [add, mkJob] at h
      rw [if_neg hdup] at h
      simpa using h
    subst hinj
    simp only [add, mkJob, get]
    rw [if_neg hdup]
    refine ⟨{ mkJob taskType input oid orid mr ra with
        id := some (oid.getD (nanoid seed)),
        jobRunId := some (orid.getD (nanoid (seed + 1))),
        queueName := some q,
        fingerprint := some (makeFingerprint input) }, ?_, rfl, rfl, rfl, ?_⟩
    · exact getJob_append_fresh (by simpa using hdup) rfl
    · intro hnone
      subst hnone
      exact ⟨rfl, nanoid_ne_empty seed⟩

/-- C4 (witness): the theorem applied to a job with no caller-supplied id
added to the empty store; `add` returns the generated id `nanoid 0`. -/
theorem claim4_witness :
    ∃ j', get (nanoid 0) (add "q" 0 (mkJob "t" .jnull none none 3 0) emptyStore).2 = some j' ∧
      j'.status = .PENDING ∧ j'.id = some (nanoid 0) ∧
      j'.fingerprint = some (makeFingerprint .jnull) ∧
      ((none : Option String) = none → nanoid 0 = nanoid 0 ∧ nanoid 0 ≠ "") :=
  claim4_add_postconditions "q" 0 "t" .jnull none none 3 0 emptyStore (nanoid 0) rfl

/-- C5 (code-bug evaluation): the store `stC5` holds a COMPLETED job for task
type `task1` with the fingerprint of `inC5` and output `outC5` (scenario S1,
also the round trip asserted by the repository's generic job-queue tests).
The claim says `outputForInput("task1", inC5)` returns that output; instead
the handler evaluates `JSON.parse` on the stored output object — not a JSON
string — which throws, so the call never yields the output. -/
theorem claim5_code_bug_eval :
    (get "a" stC5).map Job.status = some .COMPLETED ∧
    (get "a" stC5).map Job.output = some outC5 ∧
    (get "a" stC5).map Job.taskType = some "task1" ∧
    (get "a" stC5).map Job.fingerprint = some (some (makeFingerprint inC5)) ∧
    outputForInput "task1" inC5 stC5 = .error "SyntaxError" :=
  ⟨rfl, rfl, rfl, rfl, rfl⟩

/-- C6 (counterexample): in the store `stC6` the job `a` has already reached
the terminal status COMPLETED; the claim says no operation moves a COMPLETED
job to any other status and that `abort` moves a job to ABORTING only from
PROCESSING.  `abort("a")` nevertheless succeeds and moves the COMPLETED job to
ABORTING, because the code sets the status unconditionally. -/
theorem claim6_counterexample :
    (get "a" stC6).map Job.status = some .COMPLETED ∧
    (abort "a" stC6).1 = .ok () ∧
    (get "a" (abort "a" stC6).2).map Job.status = some .ABORTING :=
  ⟨rfl, rfl, rfl⟩

/-- C6 (amended): `next` performs no status change at all — its broken index
query matches no records, so it resolves `undefined` and writes nothing —
while `complete` and `abort` apply to a stored job of any current status,
including COMPLETED and FAILED: `complete` sets the status to COMPLETED,
FAILED or PENDING, and `abort` sets it to ABORTING unconditionally. -/
theorem claim6_status_transitions_amended (st : Store) (i : String) (out : JVal)
    (err : Option JobError) :
    next st = (none, st) ∧
    (∀ jc, getJob i st.jobs = some jc →
      ∃ j', get i (complete i out err st).2 = some j' ∧
        (j'.status = .COMPLETED ∨ j'.status = .FAILED ∨ j'.status = .PENDING)) ∧
    (∀ ja, getJob i st.jobs = some ja →
      ∃ j', get i (abort i st).2 = some j' ∧ j'.status = .ABORTING) := by
  refine ⟨next_eq_none st, ?_, ?_⟩
  · intro jc hc
    exact ⟨completeResult jc out err, get_complete_found _ _ hc,
      completeResult_status _ _ _⟩
  · intro ja ha
    exact ⟨{ ja with status := JobStatus.ABORTING }, get_abort_found ha, rfl⟩

/-- C6 (witness): the amended theorem applied to the store `stC6w`, whose only
job `jC6` is stored under id `a`: `next` changes nothing, a successful
`complete` marks the job COMPLETED, and `abort` marks it ABORTING. -/
theorem claim6_witness :
    next stC6w = (none, stC6w) ∧
    (∃ j', get "a" (complete "a" .jnull none stC6w).2 = some j' ∧
      (j'.status = .COMPLETED ∨ j'.status = .FAILED ∨ j'.status = .PENDING)) ∧
    (∃ j', get "a" (abort "a" stC6w).2 = some j' ∧ j'.status = .ABORTING) := by
  obtain ⟨h1, h2, h3⟩ := claim6_status_transitions_amended stC6w "a" .jnull none
  exact ⟨h1, h2 jC6 rfl, h3 jC6 rfl⟩

/-- C7 (counterexample): `retries ≤ maxRetries` does not hold in every
reachable state.  From the empty store: add a job with `maxRetries = 1`, then
complete it twice with a `PermanentJobError` — `complete` increments `retries`
on every error, including on a job already FAILED, so the job ends with
`retries = 2 > maxRetries = 1`. -/
theorem claim7_counterexample :
    ¬ (∀ st, Reachable st → ∀ j ∈ st.jobs, j.retries ≤ j.maxRetries) := by
  intro hall
  have hreach : Reachable stC7 :=
    Reachable.completeStep "a" .jnull (some (.permanent "boom")) _
      (Reachable.completeStep "a" .jnull (some (.permanent "boom")) _
        (Reachable.addStep "q" 0 "t" .jnull (some "a") (some "r") 1 0 emptyStore
          Reachable.empty))
  have hget : getJob "a" stC7.jobs = some jC7bad := rfl
  have hle := hall stC7 hreach jC7bad (getJob_mem hget).1
  have : ¬ (jC7bad.retries ≤ jC7bad.maxRetries) := by decide
  exact this hle

/-- C7 (amended): every error-completion of a stored job increments its
`retries` by exactly one and leaves `maxRetries` unchanged, and whenever the
incremented count reaches or exceeds `maxRetries` the job's status becomes
FAILED; but `retries` may exceed `maxRetries` in reachable states, because
`complete` also increments the count of jobs that are already terminal. -/
theorem claim7_retry_bound_amended (st : Store) (i : String) (out : JVal)
    (e : JobError) (j : Job) (h : getJob i st.jobs = some j) :
    ∃ j', get i (complete i out (some e) st).2 = some j' ∧
      j'.retries = j.retries + 1 ∧ j'.maxRetries = j.maxRetries ∧
      (j'.retries ≥ j'.maxRetries → j'.status = .FAILED) :=
  ⟨completeResult j out (some e), get_complete_found _ _ h,
    completeResult_some_retries _ _ _, completeResult_some_maxRetries _ _ _,
    completeResult_bound _ _ _⟩

/-- C7 (witness): the amended theorem applied to the store `stC7w`, whose job
`jC7` has `retries = 0` and `maxRetries = 1`, with a retryable error. -/
theorem claim7_witness :
    ∃ j', get "a" (complete "a" .jnull (some (.retryable "again" 9)) stC7w).2 = some j' ∧
      j'.retries = jC7.retries + 1 ∧ j'.maxRetries = jC7.maxRetries ∧
      (j'.retries ≥ j'.maxRetries → j'.status = .FAILED) :=
  claim7_retry_bound_amended stC7w "a" .jnull (.retryable "again" 9) jC7 rfl

/-- C8 (confirmed): adding a job whose id already exists in the store fails
with the IndexedDB duplicate-key error (`ConstraintError`) and leaves the
store — in particular the stored job with that id — unchanged; adding a job
with a fresh id succeeds and resolves with that id. -/
theorem claim8_add_duplicate_and_fresh (q : String) (seed : Nat) (job : Job)
    (st : Store) (i : String) (hid : job.id = some i) :
    (hasId i st.jobs = true → add q seed job st = (.error "ConstraintError", st)) ∧
    (hasId i st.jobs = false → (add q seed job st).1 = .ok i) := by
  constructor
  · intro hdup
    simp only [add, hid, Option.getD_some]
    rw [if_pos hdup]
  · intro hfresh
    simp only [add, hid, Option.getD_some]
    rw [if_neg (by simp [hfresh])]

/-- C8 (witness): the theorem applied twice to the store `stC8`, which holds
the job `jC8` under id `a`: adding another job with id `a` fails and changes
nothing, while adding a job with the fresh id `b` succeeds and returns `b`. -/
theorem claim8_witness :
    add "q" 0 jC8 stC8 = (.error "ConstraintError", stC8) ∧
    (add "q" 0 (mkJob "t" .jnull (some "b") (some "r") 3 0) stC8).1 = .ok "b" :=
  ⟨(claim8_add_duplicate_and_fresh "q" 0 jC8 stC8 "a" rfl).1 rfl,
   (claim8_add_duplicate_and_fresh "q" 0 (mkJob "t" .jnull (some "b") (some "r") 3 0)
      stC8 "b" rfl).2 rfl⟩

/-- C9 (confirmed): completing a stored job with an error of any kind —
retryable, permanent, abort-signal or generic — increments the job's `retries`
by exactly one and records the error's message in the job's `error` field. -/
theorem claim9_complete_error_accounting (st : Store) (i : String) (e : JobError)
    (j : Job) (h : getJob i st.jobs = some j) :
    ∃ j', get i (complete i .jnull (some e) st).2 = some j' ∧
      j'.retries = j.retries + 1 ∧ j'.error = some e.message :=
  ⟨completeResult j .jnull (some e), get_complete_found _ _ h,
    completeResult_some_retries _ _ _, completeResult_some_error _ _ _⟩

/-- C9 (witness): the theorem applied to the store `stC9` with an
`AbortSignalJobError`. -/
theorem claim9_witness :
    ∃ j', get "a" (complete "a" .jnull (some (.abortSignal "Aborted via signal")) stC9).2
        = some j' ∧
      j'.retries = jC9.retries + 1 ∧
      j'.error = some (JobError.abortSignal "Aborted via signal").message :=
  claim9_complete_error_accounting stC9 "a" (.abortSignal "Aborted via signal") jC9 rfl

/-- C10 (confirmed): for an id absent from the store, `get` resolves with
`undefined` (`none`) rather than an error, while `complete` and `abort` reject
with `Job <id> not found` and leave the store unchanged. -/
theorem claim10_missing_id (st : Store) (i : String) (out : JVal)
    (err : Option JobError) (h : hasId i st.jobs = false) :
    get i st = none ∧
    complete i out err st = (.error ("Job " ++ i ++ " not found"), st) ∧
    abort i st = (.error ("Job " ++ i ++ " not found"), st) := by
  have hg : getJob i st.jobs = none := getJob_of_hasId_false h
  refine ⟨hg, ?_, ?_⟩
  · simp only [complete, hg]
  · simp only [abort, hg]

/-- C10 (witness): the theorem applied to the empty store and the id `zz`. -/
theorem claim10_witness :
    get "zz" emptyStore = none ∧
    complete "zz" .jnull none emptyStore =
      (.error ("Job " ++ "zz" ++ " not found"), emptyStore) ∧
    abort "zz" emptyStore = (.error ("Job " ++ "zz" ++ " not found"), emptyStore) :=
  claim10_missing_id emptyStore "zz" .jnull none rfl

end Ellmers
